import Mathlib

/- Shallow embedding of the Retrieval and Query-Understanding Engine of the
NCV repository (src/RetrievalFilter.ipynb, class RetrievalAndFiltering).

Modelling conventions:
  * Python strings are lists of characters (`Str`); `str.lower` is an ASCII
    case fold, matching the ASCII vocabularies and inputs involved.
  * Python floats are rationals; `float(...)` on the decimal literals the
    numeric patterns can produce is `parseFloat` (exact decimal semantics).
  * The vector-store collaborator (`VectorStoreManager.query_vectorstore`)
    is an explicit function argument of type `QueryFn`.
  * Python dicts with a fixed key set are structures whose possibly-absent
    keys are `Option` fields; the metadata-filter dict is an association
    list in insertion order.
  * `re.finditer` over the four numeric patterns and the year pattern is
    implemented as a left-to-right, non-overlapping scan with the same
    greedy/alternation semantics those particular patterns have under
    Python's backtracking engine (shrinking a greedy digit run always
    leaves the cursor on a character no later pattern part can consume,
    so the deterministic greedy scan is equivalent for these patterns). -/

abbrev Str := List Char

def lowerStr (s : Str) : Str := s.map Char.toLower

/-- Python substring containment test (the expression sub in s). -/
def containsSub (sub : Str) : Str → Bool
  | [] => sub.isPrefixOf []
  | c :: t => sub.isPrefixOf (c :: t) || containsSub sub t

/-- RetrievalAndFiltering.KNOWN_COMPANIES, in source order. -/
def KNOWN_COMPANIES : List Str :=
  ["Dangote Cement".toList, "Maaden".toList, "Chemplast Sanmar".toList,
   "Saudi Aramco".toList, "Nestle".toList, "Unilever".toList,
   "Tata Steel".toList, "Siemens".toList, "Shell".toList, "Chevron".toList,
   "ExxonMobil".toList, "TotalEnergies".toList, "Reliance".toList,
   "BASF".toList, "Volkswagen".toList, "ABB".toList, "Aramco".toList,
   "Petronas".toList, "Lucky Cement".toList, "National Cement Company".toList]

/-- RetrievalAndFiltering.EMISSION_SCOPES (a Python dict; insertion order). -/
def EMISSION_SCOPES : List (Str × List Str) :=
  [("scope_1".toList,
    ["scope 1".toList, "direct emissions".toList,
     "stationary combustion".toList, "fuel combustion".toList]),
   ("scope_2".toList,
    ["scope 2".toList, "indirect emissions".toList,
     "purchased electricity".toList, "electricity consumption".toList]),
   ("scope_3".toList,
    ["scope 3".toList, "value chain emissions".toList,
     "supply chain".toList, "downstream emissions".toList])]

/-- The sustainability_keywords list of _extract_entities_from_question. -/
def sustainabilityKeywords : List Str :=
  ["emissions".toList, "carbon".toList, "co2".toList,
   "greenhouse gas".toList, "ghg".toList, "sustainability".toList,
   "environmental".toList, "renewable".toList, "energy".toList,
   "targets".toList, "goals".toList, "initiatives".toList,
   "reduction".toList]

/-- The comparison_keywords list of _is_comparison_question. -/
def comparisonKeywords : List Str :=
  ["compare".toList, "comparison".toList, "versus".toList, "vs".toList,
   "difference".toList, "between".toList, "which is better".toList,
   "which is higher".toList, "which is lower".toList, "how do".toList,
   "both".toList, "all".toList, "each".toList, "respectively".toList]

/- Year extraction: re.findall of the pattern backslash-b (20dd|19dd)
backslash-b over the raw question, left to right, non-overlapping. -/

def isWordChar (c : Char) : Bool := c.isAlphanum || c = '_'

/-- Match one alternative of the year pattern at the head of s, including
the trailing word boundary. -/
def yearAt (s : Str) : Option (Str × Str) :=
  match s with
  | c1 :: c2 :: c3 :: c4 :: rest =>
    if ((c1 = '2' && c2 = '0') || (c1 = '1' && c2 = '9')) && c3.isDigit
        && c4.isDigit
        && (match rest with | [] => true | r :: _ => !isWordChar r) then
      some ([c1, c2, c3, c4], rest)
    else none
  | _ => none

/-- Scan for year matches; prevWord records whether the character before
the current position is a word character (for the leading boundary). -/
def findallYearsAux : Nat → Bool → Str → List Str
  | 0, _, _ => []
  | _ + 1, _, [] => []
  | fuel + 1, prevWord, c :: t =>
    if prevWord then findallYearsAux fuel (isWordChar c) t
    else
      match yearAt (c :: t) with
      | some (y, rest) => y :: findallYearsAux fuel true rest
      | none => findallYearsAux fuel (isWordChar c) t

def findallYears (q : Str) : List Str := findallYearsAux (q.length + 1) false q

/-- The entity dict returned by _extract_entities_from_question. -/
structure EntitySet where
  companies : List Str
  years : List Str
  emission_scope : Str
  keywords : List Str
  deriving DecidableEq, Repr

/-- RetrievalAndFiltering._extract_entities_from_question. -/
def extractEntities (question : Str) : EntitySet :=
  let ql := lowerStr question
  { companies := KNOWN_COMPANIES.filter (fun c => containsSub (lowerStr c) ql)
  , years := findallYears question
  , emission_scope :=
      match EMISSION_SCOPES.find? (fun p => p.2.any (fun kw => containsSub kw ql)) with
      | some p => p.1
      | none => "unknown".toList
  , keywords := sustainabilityKeywords.filter (fun kw => containsSub kw ql) }

/-- RetrievalAndFiltering._is_comparison_question. -/
def isComparisonQuestion (question : Str) : Bool :=
  let ql := lowerStr question
  let hasComparisonKeywords := comparisonKeywords.any (fun kw => containsSub kw ql)
  let entities := extractEntities question
  let hasMultipleEntities :=
    decide (2 ≤ entities.companies.length) || decide (2 ≤ entities.years.length)
  hasComparisonKeywords || hasMultipleEntities

/-- Metadata filters: a Python dict from field name to value, kept as an
association list in insertion order. -/
abbrev Filters := List (String × Str)

/-- RetrievalAndFiltering._build_metadata_filters. -/
def buildMetadataFilters (es : EntitySet) : Filters :=
  (if es.companies.isEmpty then [] else
    if es.companies.length = 1 then [("company_name", es.companies.headD [])]
    else [])
  ++
  (if es.years.isEmpty then [] else
    if es.years.length = 1 then [("report_year", es.years.headD [])]
    else [])

/- Numeric fact extraction: _extract_numerical_values and its four regex
patterns. Each pattern is NUMBER, then whitespace-star, then a unit
alternation; NUMBER is digits-dot-exponent (patterns 1 to 3) or digits
with comma thousands groups (pattern 4). -/

/-- Longest prefix of ASCII digits (greedy backslash-d-plus). -/
def takeDigits : Str → Str × Str
  | [] => ([], [])
  | c :: t =>
    if c.isDigit then
      let d := takeDigits t
      (c :: d.1, d.2)
    else ([], c :: t)

def isWs (c : Char) : Bool :=
  c = ' ' || c = '\t' || c = '\n' || c = '\r' || c = '\x0b' || c = '\x0c'

/-- Longest prefix of whitespace (greedy backslash-s-star). -/
def takeWs : Str → Str × Str
  | [] => ([], [])
  | c :: t =>
    if isWs c then
      let w := takeWs t
      (c :: w.1, w.2)
    else ([], c :: t)

/-- Optional fraction part: a dot followed by at least one digit, else the
group matches empty. -/
def optFrac (s : Str) : Str × Str :=
  match s with
  | c :: t =>
    if c = '.' then
      let d := takeDigits t
      if d.1.isEmpty then ([], s) else ('.' :: d.1, d.2)
    else ([], s)
  | [] => ([], s)

/-- Optional exponent part: e or E, an optional sign, then at least one
digit, else the group matches empty. -/
def optExp (s : Str) : Str × Str :=
  match s with
  | e :: t =>
    if e = 'e' || e = 'E' then
      match t with
      | c :: t2 =>
        if c = '+' || c = '-' then
          (match takeDigits t2 with
           | ([], _) => ([], s)
           | (ds, r) => (e :: c :: ds, r))
        else
          (match takeDigits t with
           | ([], _) => ([], s)
           | (ds, r) => (e :: ds, r))
      | [] => ([], s)
    else ([], s)
  | [] => ([], s)

/-- The number part of patterns 1 to 3: digits, optional fraction,
optional exponent. -/
def matchNumSci (s : Str) : Option (Str × Str) :=
  let d := takeDigits s
  if d.1.isEmpty then none
  else
    let f := optFrac d.2
    let e := optExp f.2
    some (d.1 ++ f.1 ++ e.1, e.2)

/-- Greedy star of comma-plus-three-digits groups (pattern 4). -/
def commaGroups : Str → Str × Str
  | ',' :: a :: b :: c :: t =>
    if a.isDigit && b.isDigit && c.isDigit then
      let g := commaGroups t
      (',' :: a :: b :: c :: g.1, g.2)
    else ([], ',' :: a :: b :: c :: t)
  | s => ([], s)

/-- The number part of pattern 4: one to three digits, comma groups, and
an optional fraction. A digit run longer than three leaves the extra
digits in place, where no later pattern part can consume them, exactly as
under the backtracking engine. -/
def matchNumComma (s : Str) : Option (Str × Str) :=
  let d := takeDigits s
  if d.1.isEmpty then none
  else
    let g := commaGroups (d.1.drop 3 ++ d.2)
    let f := optFrac g.2
    some (d.1.take 3 ++ g.1 ++ f.1, f.2)

/-- One alternative of a unit alternation: a literal matched
case-insensitively, optionally followed by a greedy s (the s-question-mark
suffix in the source patterns). -/
structure UnitAlt where
  base : Str
  optS : Bool
  deriving DecidableEq, Repr

/-- Case-insensitive literal match returning the matched text characters. -/
def matchCI : Str → Str → Option (Str × Str)
  | [], s => some ([], s)
  | _ :: _, [] => none
  | l :: ls, c :: t =>
    if c.toLower = l.toLower then
      match matchCI ls t with
      | some (m, r) => some (c :: m, r)
      | none => none
    else none

def matchUnitAlt (u : UnitAlt) (s : Str) : Option (Str × Str) :=
  match matchCI u.base s with
  | none => none
  | some (m, r) =>
    if u.optS then
      match r with
      | c :: t => if c.toLower = 's' then some (m ++ [c], t) else some (m, r)
      | [] => some (m, r)
    else some (m, r)

/-- Ordered alternation over unit alternatives; the first alternative that
matches wins (nothing follows the unit group in the patterns). -/
def matchUnits : List UnitAlt → Str → Option (Str × Str)
  | [], _ => none
  | u :: us, s =>
    match matchUnitAlt u s with
    | some x => some x
    | none => matchUnits us s

inductive NumKind where
  | sci
  | comma
  deriving DecidableEq, Repr

structure NumPattern where
  kind : NumKind
  units : List UnitAlt
  deriving DecidableEq, Repr

/-- Pattern 1: mass and carbon units. -/
def massPattern : NumPattern :=
  { kind := .sci
  , units :=
      [⟨"tCO2".toList, false⟩, ⟨"tonne".toList, true⟩, ⟨"ton".toList, true⟩,
       ⟨"Mt".toList, false⟩, ⟨"Gt".toList, false⟩, ⟨"kg".toList, false⟩,
       ⟨"metric ton".toList, true⟩, ⟨"million tonne".toList, true⟩] }

/-- Pattern 2: energy units. -/
def energyPattern : NumPattern :=
  { kind := .sci
  , units :=
      [⟨"GWh".toList, false⟩, ⟨"MWh".toList, false⟩, ⟨"kWh".toList, false⟩,
       ⟨"TJ".toList, false⟩, ⟨"GJ".toList, false⟩, ⟨"MJ".toList, false⟩] }

/-- Pattern 3: percentage markers. -/
def percentPattern : NumPattern :=
  { kind := .sci
  , units :=
      [⟨"%".toList, false⟩, ⟨"percent".toList, false⟩,
       ⟨"percentage".toList, false⟩] }

/-- Pattern 4: comma-separated numbers with a subset of the mass units. -/
def commaMassPattern : NumPattern :=
  { kind := .comma
  , units :=
      [⟨"tCO2".toList, false⟩, ⟨"tonne".toList, true⟩, ⟨"ton".toList, true⟩,
       ⟨"Mt".toList, false⟩, ⟨"Gt".toList, false⟩] }

/-- The patterns list of _extract_numerical_values, in source order. -/
def numericPatterns : List NumPattern :=
  [massPattern, energyPattern, percentPattern, commaMassPattern]

/-- Result of matching a pattern at one position: the whole match, the
number group, the unit group, and the remaining text. -/
structure MRes where
  g0 : Str
  g1 : Str
  g2 : Str
  rest : Str
  deriving DecidableEq, Repr

/-- Try to match a pattern anchored at the head of s. -/
def tryMatchAt (p : NumPattern) (s : Str) : Option MRes :=
  match (match p.kind with
         | .sci => matchNumSci s
         | .comma => matchNumComma s) with
  | none => none
  | some nr =>
    let w := takeWs nr.2
    match matchUnits p.units w.2 with
    | none => none
    | some u => some ⟨nr.1 ++ w.1 ++ u.1, nr.1, u.1, u.2⟩

/-- A match as re.finditer reports it: start and end offsets, the whole
match and the two groups. -/
structure RMatch where
  start : Nat
  stop : Nat
  matched : Str
  g1 : Str
  g2 : Str
  deriving DecidableEq, Repr

/-- Left-to-right non-overlapping scan; on a match the scan resumes at its
end, otherwise at the next character. Every match consumes at least one
character, so fuel equal to the text length plus one is never exhausted. -/
def scanAux (p : NumPattern) : Nat → Str → Nat → List RMatch
  | 0, _, _ => []
  | _ + 1, [], _ => []
  | fuel + 1, c :: t, pos =>
    match tryMatchAt p (c :: t) with
    | some r =>
      ⟨pos, pos + r.g0.length, r.g0, r.g1, r.g2⟩ ::
        scanAux p fuel r.rest (pos + r.g0.length)
    | none => scanAux p fuel t (pos + 1)

/-- re.finditer of one numeric pattern over the text. -/
def finditer (p : NumPattern) (text : Str) : List RMatch :=
  scanAux p (text.length + 1) text 0

def natOfDigits (ds : Str) : Nat :=
  ds.foldl (fun a c => a * 10 + (c.toNat - '0'.toNat)) 0

def mantissaQ (ds fs : Str) : ℚ :=
  (natOfDigits ds : ℚ) + (natOfDigits fs : ℚ) / (10 : ℚ) ^ fs.length

def parseExpPart (m : ℚ) (s : Str) : Option ℚ :=
  match s with
  | '+' :: t =>
    (match takeDigits t with
     | (es, []) => if es.isEmpty then none else some (m * (10 : ℚ) ^ natOfDigits es)
     | _ => none)
  | '-' :: t =>
    (match takeDigits t with
     | (es, []) => if es.isEmpty then none else some (m / (10 : ℚ) ^ natOfDigits es)
     | _ => none)
  | _ =>
    (match takeDigits s with
     | (es, []) => if es.isEmpty then none else some (m * (10 : ℚ) ^ natOfDigits es)
     | _ => none)

/-- Model of the Python float constructor on the digit-led decimal
literals the number groups can produce (exact decimal semantics; binary
rounding of float64 is not modelled). Returns none on strings float would
reject, which the source skips via its ValueError handler. -/
def parseFloat (s : Str) : Option ℚ :=
  match takeDigits s with
  | ([], _) => none
  | (ds, r1) =>
    match r1 with
    | [] => some ((natOfDigits ds : ℚ))
    | '.' :: t =>
      (match takeDigits t with
       | (fs, []) => some (mantissaQ ds fs)
       | (fs, e :: t2) =>
         if e = 'e' || e = 'E' then parseExpPart (mantissaQ ds fs) t2 else none)
    | e :: t2 => if e = 'e' || e = 'E' then parseExpPart ((natOfDigits ds : ℚ)) t2 else none

/-- One entry of the numerical_values list. -/
structure NumericFact where
  value : ℚ
  unit : Str
  raw : Str
  context : Str
  deriving DecidableEq, Repr

/-- Build the fact dict for one match: strip commas from group 1, convert
with float, skip the match on ValueError, and attach the 50-character
surrounding context. -/
def mkFact (text : Str) (m : RMatch) : Option NumericFact :=
  match parseFloat (m.g1.filter (fun c => c != ',')) with
  | none => none
  | some v =>
    some { value := v, unit := m.g2, raw := m.matched
         , context := (text.drop (m.start - 50)).take ((m.stop + 50) - (m.start - 50)) }

/-- RetrievalAndFiltering._extract_numerical_values: for each pattern in
order, for each match in text order, append the parsed fact. -/
def extractNumericalValues (text : Str) : List NumericFact :=
  numericPatterns.flatMap (fun p => (finditer p text).filterMap (mkFact text))

/-- All pattern matches in the order the extraction loop visits them. -/
def allPatternMatches (text : Str) : List RMatch :=
  numericPatterns.flatMap (fun p => finditer p text)

/- Answer synthesis and the question-answering entry points. -/

/-- Passage metadata as produced by the vector-store collaborator; the
source reads fields through dict.get with defaults, so every field is
optional here. -/
structure MetaData where
  source : Option Str := none
  company_name : Option Str := none
  report_year : Option Str := none
  page : Option Str := none
  tags : Option (List Str) := none
  chunk_id : Option Str := none
  deriving DecidableEq, Repr

/-- A retrieved document (langchain Document). -/
structure Passage where
  page_content : Str
  metadata : MetaData
  deriving DecidableEq, Repr

/-- The vector-store collaborator: query_vectorstore(query, k, filters). -/
abbrev QueryFn := Str → Nat → Filters → List Passage

/-- Python str.split with no argument: split on whitespace runs, dropping
empty pieces. -/
def pySplit (s : Str) : List Str :=
  ((s.map (fun c => if isWs c then ' ' else c)).splitOn ' ').filter
    (fun w => !w.isEmpty)

/-- Python str.strip: drop whitespace from both ends. -/
def stripWs (s : Str) : Str :=
  ((s.dropWhile isWs).reverse.dropWhile isWs).reverse

/-- RetrievalAndFiltering._extract_simple_answer: pick the sentence with
the largest distinct-word overlap with the question (strict improvement,
so the first best sentence wins), else a sentinel answer. -/
def extractSimpleAnswer (question context : Str) : Str :=
  let questionWords := (pySplit (lowerStr question)).dedup
  let sentences := context.splitOn '.'
  let best := sentences.foldl
    (fun acc sentence =>
      let sentenceWords := pySplit (lowerStr sentence)
      let overlap := questionWords.countP (fun w => sentenceWords.contains w)
      if acc.2 < overlap then (stripWs sentence, overlap) else acc)
    (([] : Str), 0)
  if best.1.isEmpty then "Information found in context".toList else best.1

/-- Output of the QA pipeline call: Python code distinguishes a list of
answer dicts from a single answer dict. -/
structure QADict where
  answer : Option Str := none
  score : Option ℚ := none
  deriving DecidableEq, Repr

inductive QAOut where
  | list (xs : List QADict)
  | dict (d : QADict)
  deriving DecidableEq, Repr

abbrev QAPipe := Str → Str → QAOut

/-- One entry of the answers list of _handle_standard_question. -/
structure AnswerData where
  answer : Str
  confidence : ℚ
  context : Str
  source : Str
  company : Str
  year : Str
  page : Str
  tags : List Str
  numerical_values : List NumericFact
  chunk_id : Str
  deriving DecidableEq, Repr

def truncCtx (content : Str) (n : Nat) : Str :=
  if n < content.length then content.take n ++ "...".toList else content

/-- The per-result loop of _handle_standard_question. In the source the
isinstance check sits outside the if self.qa_pipeline block, so qa_result
is a function-local variable that is only ever assigned under that block;
the parameter bound models its binding state across iterations. With no
pipeline the isinstance check raises NameError on the unbound variable,
the per-result except swallows it, and the loop continues; when the
pipeline returns a plain dict, the else branch runs the fallback heuristic
with confidence one half. -/
def processResults (qaPipeline : Option QAPipe) (question : Str) :
    List Passage → Option QAOut → List AnswerData
  | [], _ => []
  | result :: rs, bound =>
    let qaResult : Option QAOut :=
      match qaPipeline with
      | some p => some (p question result.page_content)
      | none => bound
    match qaResult with
    | none =>
      -- NameError: qa_result referenced before assignment; caught, continue
      processResults qaPipeline question rs bound
    | some v =>
      match v with
      | .list [] =>
        -- IndexError on qa_result[0]; caught, continue
        processResults qaPipeline question rs (some v)
      | .list (d :: _) =>
        { answer := d.answer.getD ("No answer".toList)
        , confidence := d.score.getD 0
        , context := truncCtx result.page_content 300
        , source := result.metadata.source.getD ("Unknown".toList)
        , company := result.metadata.company_name.getD ("Unknown".toList)
        , year := result.metadata.report_year.getD ("Unknown".toList)
        , page := result.metadata.page.getD ("Unknown".toList)
        , tags := result.metadata.tags.getD []
        , numerical_values := extractNumericalValues result.page_content
        , chunk_id := result.metadata.chunk_id.getD ("Unknown".toList) } ::
          processResults qaPipeline question rs (some (.dict d))
      | .dict _ =>
        { answer := extractSimpleAnswer question result.page_content
        , confidence := (1 : ℚ) / 2
        , context := truncCtx result.page_content 300
        , source := result.metadata.source.getD ("Unknown".toList)
        , company := result.metadata.company_name.getD ("Unknown".toList)
        , year := result.metadata.report_year.getD ("Unknown".toList)
        , page := result.metadata.page.getD ("Unknown".toList)
        , tags := result.metadata.tags.getD []
        , numerical_values := extractNumericalValues result.page_content
        , chunk_id := result.metadata.chunk_id.getD ("Unknown".toList) } ::
          processResults qaPipeline question rs (some v)

/-- One entry of the comparison_results list (the year-comparison branch
builds its dict without a page key). -/
structure CompPoint where
  company : Str
  year : Str
  emission_scope : Str
  context : Str
  numerical_values : List NumericFact
  source : Str
  page : Option Str := none
  chunk_id : Str
  deriving DecidableEq, Repr

/-- A row of the flattened all_values list in
_calculate_comparison_metrics. -/
structure ValEntry where
  value : ℚ
  unit : Str
  company : Str
  year : Str
  context : Str
  deriving DecidableEq, Repr

instance : Inhabited ValEntry := ⟨⟨0, [], [], [], []⟩⟩

structure SideInfo where
  value : ℚ
  company : Str
  year : Str
  deriving DecidableEq, Repr

/-- One entry of numerical_comparisons. -/
structure UnitComparison where
  unit : Str
  highest : SideInfo
  lowest : SideInfo
  difference : ℚ
  percentage_difference : ℚ
  deriving DecidableEq, Repr

/-- The metrics dict of _calculate_comparison_metrics. -/
structure Metrics where
  error : Option Str := none
  total_comparisons : Nat := 0
  numerical_comparisons : List UnitComparison := []
  summary : Str := []
  deriving DecidableEq, Repr

/-- Stable insertion into a descending run: a new value moves ahead only
of strictly smaller ones, so equal values keep their input order, as
Python sorted with reverse equals True does. -/
def insertDesc (v : ValEntry) : List ValEntry → List ValEntry
  | [] => [v]
  | w :: ws => if w.value < v.value then v :: w :: ws else w :: insertDesc v ws

/-- Model of sorted(values, key value, reverse True): a stable descending
sort by value. -/
def sortDesc (l : List ValEntry) : List ValEntry :=
  l.foldl (fun acc v => insertDesc v acc) []

/-- Append a value to its unit group, or open a new group at the end
(Python dict insertion order). -/
def insertVal (u : Str) (v : ValEntry) :
    List (Str × List ValEntry) → List (Str × List ValEntry)
  | [] => [(u, [v])]
  | (k, vs) :: rest =>
    if k = u then (k, vs ++ [v]) :: rest else (k, vs) :: insertVal u v rest

/-- Group all values by lower-cased unit, in first-appearance order. -/
def unitGroups (vs : List ValEntry) : List (Str × List ValEntry) :=
  vs.foldl (fun g v => insertVal (lowerStr v.unit) v g) []

/-- Model of Python number formatting inside the summary f-string. -/
def showRat (q : ℚ) : Str := (toString q).toList

/-- The comparison dict built for one unit group with at least two
observations. -/
def mkUnitComparison (unit : Str) (values : List ValEntry) : UnitComparison :=
  let sortedValues := sortDesc values
  let highest := sortedValues.headD default
  let lowest := sortedValues.getLastD default
  { unit := unit
  , highest := { value := highest.value, company := highest.company, year := highest.year }
  , lowest := { value := lowest.value, company := lowest.company, year := lowest.year }
  , difference := highest.value - lowest.value
  , percentage_difference :=
      if 0 < lowest.value then
        (highest.value - lowest.value) / lowest.value * 100
      else 0 }

def mkSummary (c : UnitComparison) : Str :=
  "Highest: ".toList ++ c.highest.company ++ " (".toList ++ showRat c.highest.value
    ++ " ".toList ++ c.unit ++ "), Lowest: ".toList ++ c.lowest.company
    ++ " (".toList ++ showRat c.lowest.value ++ " ".toList ++ c.unit ++ ")".toList

/-- RetrievalAndFiltering._calculate_comparison_metrics. -/
def calcComparisonMetrics (comparisonResults : List CompPoint) : Metrics :=
  if comparisonResults.length < 2 then
    { error := some ("Need at least 2 results for comparison".toList) }
  else
    let allValues := comparisonResults.flatMap (fun r =>
      r.numerical_values.map (fun nv =>
        { value := nv.value, unit := nv.unit, company := r.company
        , year := r.year, context := nv.context : ValEntry }))
    let comparisons := (unitGroups allValues).filterMap (fun g =>
      if 2 ≤ g.2.length then some (mkUnitComparison g.1 g.2) else none)
    { total_comparisons := comparisonResults.length
    , numerical_comparisons := comparisons
    , summary :=
        match comparisons with
        | [] => []
        | c :: _ => mkSummary c }

/-- The result record of answer_question and its handlers: a Python dict
whose key set varies by path, modelled with optional fields. -/
structure QAResultRecord where
  question : Str
  error : Option Str := none
  answer : Option Str := none
  answers : Option (List AnswerData) := none
  entities_detected : Option EntitySet := none
  filters_applied : Option Filters := none
  total_results : Option Nat := none
  comparison_type : Option Str := none
  comparison_results : Option (List CompPoint) := none
  comparison_metrics : Option Metrics := none
  deriving DecidableEq, Repr

/-- Python string replace of underscores by spaces, used on the scope. -/
def underscoreToSpace (s : Str) : Str :=
  s.map (fun c => if c = '_' then ' ' else c)

/-- RetrievalAndFiltering._handle_standard_question. -/
def handleStandardQuestion (qaPipeline : Option QAPipe) (query : QueryFn)
    (question : Str) (topK : Nat) : QAResultRecord :=
  let entities := extractEntities question
  let filters := buildMetadataFilters entities
  let results := query question topK filters
  if results.isEmpty then
    { question := question
    , answer := some ("No relevant information found in the knowledge base".toList)
    , entities_detected := some entities
    , filters_applied := some filters
    , total_results := some 0 }
  else
    { question := question
    , answers := some (processResults qaPipeline question results none)
    , entities_detected := some entities
    , filters_applied := some filters
    , total_results := some results.length }

/-- RetrievalAndFiltering._handle_comparison_question. -/
def handleComparisonQuestion (query : QueryFn) (question : Str) : QAResultRecord :=
  let entities := extractEntities question
  let companies := entities.companies
  let years := entities.years
  let emissionScope := entities.emission_scope
  if companies.length < 2 ∧ years.length < 2 then
    { question := question
    , error := some ("Comparison requires at least 2 companies or 2 years".toList)
    , entities_detected := some entities }
  else
    let comparisonResults : List CompPoint :=
      if 2 ≤ companies.length then
        companies.filterMap (fun company =>
          let filters : Filters :=
            [("company_name", company)] ++
              (if years.isEmpty then [] else [("report_year", years.headD [])])
          let q := company ++ " ".toList ++ underscoreToSpace emissionScope
            ++ " emissions carbon".toList
          match query q 3 filters with
          | [] => none
          | best :: _ =>
            some { company := company
                 , year := best.metadata.report_year.getD ("Unknown".toList)
                 , emission_scope := emissionScope
                 , context := best.page_content.take 200
                 , numerical_values := extractNumericalValues best.page_content
                 , source := best.metadata.source.getD ("Unknown".toList)
                 , page := some (best.metadata.page.getD ("Unknown".toList))
                 , chunk_id := best.metadata.chunk_id.getD ("Unknown".toList) })
      else if 2 ≤ years.length ∧ ¬companies.isEmpty then
        years.filterMap (fun year =>
          let company := companies.headD []
          let filters : Filters := [("company_name", company), ("report_year", year)]
          let q := company ++ " ".toList ++ year ++ " ".toList
            ++ underscoreToSpace emissionScope ++ " emissions".toList
          match query q 3 filters with
          | [] => none
          | best :: _ =>
            some { company := company
                 , year := year
                 , emission_scope := emissionScope
                 , context := best.page_content.take 200
                 , numerical_values := extractNumericalValues best.page_content
                 , source := best.metadata.source.getD ("Unknown".toList)
                 , chunk_id := best.metadata.chunk_id.getD ("Unknown".toList) })
      else []
    { question := question
    , comparison_type :=
        some (if 2 ≤ companies.length then "company".toList else "year".toList)
    , comparison_results := some comparisonResults
    , comparison_metrics := some (calcComparisonMetrics comparisonResults)
    , entities_detected := some entities }

/-- RetrievalAndFiltering.answer_question: guard on vector-store
availability, then route by question type. -/
def answerQuestion (vectorstoreAvailable : Bool) (qaPipeline : Option QAPipe)
    (query : QueryFn) (question : Str) (topK : Nat) : QAResultRecord :=
  if !vectorstoreAvailable then
    { question := question
    , error := some ("Vector store not available. Please ensure it's properly initialized.".toList)
    , answer := some ("Unable to process question - vector store not loaded".toList) }
  else if isComparisonQuestion question then
    handleComparisonQuestion query question
  else
    handleStandardQuestion qaPipeline query question topK

/- Concrete fixtures used by the claim witnesses, counterexamples and the
code-bug evaluation. -/

/-- A retrieved passage over which the fixture vector store answers. -/
def demoPassage : Passage :=
  { page_content := "Shell reported 100 tCO2 emissions in 2020.".toList
  , metadata :=
      { source := some ("shell.pdf".toList)
      , company_name := some ("Shell".toList)
      , report_year := some ("2020".toList)
      , page := some ("7".toList)
      , tags := some []
      , chunk_id := some ("c1".toList) } }

/-- A fixture vector store that returns one passage for every query. -/
def oneHitQuery : QueryFn := fun _ _ _ => [demoPassage]

/-- A fixture vector store that returns no passages. -/
def emptyQuery : QueryFn := fun _ _ _ => []

/-- Comparison point fixture for the metrics witness. -/
def demoPoint (company : Str) (v : ℚ) : CompPoint :=
  { company := company
  , year := "2020".toList
  , emission_scope := "scope_1".toList
  , context := []
  , numerical_values := [{ value := v, unit := "tCO2".toList, raw := [], context := [] }]
  , source := []
  , page := some ("1".toList)
  , chunk_id := [] }

/-- The two comparison points of the metrics witness. -/
def demoPoints : List CompPoint :=
  [demoPoint ("Shell".toList) 12, demoPoint ("Chevron".toList) 8]

/-- The unit comparison that _calculate_comparison_metrics produces on
demoPoints. -/
def demoCmp : UnitComparison :=
  { unit := "tco2".toList
  , highest := { value := 12, company := "Shell".toList, year := "2020".toList }
  , lowest := { value := 8, company := "Chevron".toList, year := "2020".toList }
  , difference := 4
  , percentage_difference := 50 }

/-- The pattern-4 match that finditer finds in the comma witness text. -/
def demoCommaMatch : RMatch :=
  { start := 0, stop := 12
  , matched := "1,234 tonnes".toList
  , g1 := "1,234".toList
  , g2 := "tonnes".toList }

/-- The duplicated fact of the deduplication claim. -/
def demoTonnesFact : NumericFact :=
  { value := 500
  , unit := "tonnes".toList
  , raw := "500 tonnes".toList
  , context := "500 tonnes".toList }


/- Helper lemmas. -/

theorem two_le_length_of_mem {α : Type} {a b : α} {l : List α}
    (ha : a ∈ l) (hb : b ∈ l) (hne : a ≠ b) : 2 ≤ l.length := by
  induction l with
  | nil => simp at ha
  | cons x xs ih =>
    rcases List.mem_cons.mp ha with rfl | ha2
    · rcases List.mem_cons.mp hb with rfl | hb2
      · exact absurd rfl hne
      · have : 1 ≤ xs.length := List.length_pos.mpr (List.ne_nil_of_mem hb2)
        simpa using Nat.succ_le_succ this
    · have : 1 ≤ xs.length := List.length_pos.mpr (List.ne_nil_of_mem ha2)
      simpa using Nat.succ_le_succ this

theorem containsSub_infix_iff (sub s : Str) : containsSub sub s = true ↔ sub <:+: s := by
  induction s with
  | nil =>
    simp only [containsSub, List.isPrefixOf_iff_prefix, List.prefix_nil, List.infix_nil]
  | cons c t ih =>
    simp only [containsSub, Bool.or_eq_true, List.isPrefixOf_iff_prefix, ih,
      List.infix_cons_iff]

/- C1: the question classifier is a disjunction of comparison keywords and
multiple detected entities. -/

/-- C1: for every question that contains two distinct names of the fixed
known-organization list as case-insensitive substrings, or that contains
any comparison-signal phrase, _is_comparison_question returns true; either
signal alone triggers comparison mode. -/
theorem C1_two_orgs_or_keyword (q : Str)
    (h : (∃ c1 ∈ KNOWN_COMPANIES, ∃ c2 ∈ KNOWN_COMPANIES, c1 ≠ c2 ∧
            containsSub (lowerStr c1) (lowerStr q) = true ∧
            containsSub (lowerStr c2) (lowerStr q) = true) ∨
         (∃ kw ∈ comparisonKeywords, containsSub kw (lowerStr q) = true)) :
    isComparisonQuestion q = true := by
  rcases h with ⟨c1, hc1, c2, hc2, hne, h1, h2⟩ | ⟨kw, hkw, hsub⟩
  · have hm1 : c1 ∈ (extractEntities q).companies := by
      simp only [extractEntities]
      exact List.mem_filter.mpr ⟨hc1, h1⟩
    have hm2 : c2 ∈ (extractEntities q).companies := by
      simp only [extractEntities]
      exact List.mem_filter.mpr ⟨hc2, h2⟩
    have hlen : 2 ≤ (extractEntities q).companies.length :=
      two_le_length_of_mem hm1 hm2 hne
    simp only [isComparisonQuestion, Bool.or_eq_true, decide_eq_true_eq]
    exact Or.inr (Or.inl hlen)
  · simp only [isComparisonQuestion, Bool.or_eq_true, List.any_eq_true]
    exact Or.inl ⟨kw, hkw, hsub⟩

/-- Witness for C1 at a concrete two-organization question. -/
theorem C1_witness :
    ((∃ c1 ∈ KNOWN_COMPANIES, ∃ c2 ∈ KNOWN_COMPANIES, c1 ≠ c2 ∧
        containsSub (lowerStr c1) (lowerStr ("Shell and Chevron emissions".toList)) = true ∧
        containsSub (lowerStr c2) (lowerStr ("Shell and Chevron emissions".toList)) = true) ∨
      (∃ kw ∈ comparisonKeywords,
        containsSub kw (lowerStr ("Shell and Chevron emissions".toList)) = true)) ∧
    isComparisonQuestion ("Shell and Chevron emissions".toList) = true :=
  ⟨by decide, C1_two_orgs_or_keyword ("Shell and Chevron emissions".toList) (by decide)⟩

/- C2: the filter builder sets a field exactly when the matching entity is
unique, and never any other field. -/

/-- C2: for every EntitySet, the built filter contains the company_name
field iff exactly one organization was detected and the report_year field
iff exactly one year was detected, and contains no other fields. -/
theorem C2_filter_fields (es : EntitySet) :
    ((∃ v, ("company_name", v) ∈ buildMetadataFilters es) ↔ es.companies.length = 1) ∧
    ((∃ v, ("report_year", v) ∈ buildMetadataFilters es) ↔ es.years.length = 1) ∧
    (∀ kv ∈ buildMetadataFilters es, kv.1 = "company_name" ∨ kv.1 = "report_year") := by
  have hkey : ("company_name" : String) ≠ "report_year" := by decide
  unfold buildMetadataFilters
  split_ifs with h1 h2 h3 h4 h5 h6 <;>
    simp_all [List.isEmpty_iff, List.length_eq_zero]

/- C10: the known-organization list contains both Saudi Aramco and Aramco,
and Aramco is a substring of Saudi Aramco, so that name alone yields two
detected organizations. -/

/-- C10: every question containing Saudi Aramco case-insensitively makes
the entity extractor return both Saudi Aramco and Aramco, hence at least
two organizations; the classifier marks it a comparison, and the built
filter never carries the company_name field for it. -/
theorem C10_saudi_aramco (q : Str)
    (h : containsSub (lowerStr ("Saudi Aramco".toList)) (lowerStr q) = true) :
    ("Saudi Aramco".toList) ∈ (extractEntities q).companies ∧
    ("Aramco".toList) ∈ (extractEntities q).companies ∧
    2 ≤ (extractEntities q).companies.length ∧
    isComparisonQuestion q = true ∧
    (∀ kv ∈ buildMetadataFilters (extractEntities q), kv.1 ≠ "company_name") := by
  have hsub : containsSub (lowerStr ("Aramco".toList)) (lowerStr q) = true := by
    refine (containsSub_infix_iff _ _).mpr (List.IsInfix.trans ?_ ((containsSub_infix_iff _ _).mp h))
    decide
  have hm1 : ("Saudi Aramco".toList) ∈ (extractEntities q).companies := by
    simp only [extractEntities]
    exact List.mem_filter.mpr ⟨by decide, h⟩
  have hm2 : ("Aramco".toList) ∈ (extractEntities q).companies := by
    simp only [extractEntities]
    exact List.mem_filter.mpr ⟨by decide, hsub⟩
  have hlen : 2 ≤ (extractEntities q).companies.length :=
    two_le_length_of_mem hm1 hm2 (by decide)
  refine ⟨hm1, hm2, hlen, ?_, ?_⟩
  · simp only [isComparisonQuestion, Bool.or_eq_true, decide_eq_true_eq]
    exact Or.inr (Or.inl hlen)
  · intro kv hkv
    have hne : ¬(extractEntities q).companies.isEmpty = true := by
      simp [List.isEmpty_iff, List.ne_nil_of_mem hm1]
    have hone : ¬(extractEntities q).companies.length = 1 := by omega
    unfold buildMetadataFilters at hkv
    simp only [hne, hone, if_false, List.nil_append] at hkv
    split_ifs at hkv <;> simp_all

/- C3: the fallback path of the standard handler. In the source the
isinstance check is indented outside the if self.qa_pipeline block, so
with qa_pipeline set to None the name qa_result is never bound, every
iteration of the answer loop raises NameError, the per-result except
swallows it, and the returned answers list is empty, contradicting the
fallback contract stated by the spec and by the docstring of
_extract_simple_answer. -/

/-- C3 (code-bug evaluation): with no QA pipeline and one retrieved
passage, answer_question reports one retrieval result but an empty
answers list, instead of one fallback answer with confidence one half. -/
theorem C3_qa_none_returns_no_answers :
    (answerQuestion true none oneHitQuery ("What are the emissions of Shell?".toList) 5).answers
      = some [] ∧
    (answerQuestion true none oneHitQuery ("What are the emissions of Shell?".toList) 5).total_results
      = some 1 := by
  decide

/- C4: which top-level fields a result record can carry. -/

/-- C4 counterexample: a successfully handled comparison question yields a
record with no answer, no answers and no error field. -/
theorem C4_counterexample :
    (answerQuestion true none emptyQuery ("Compare Shell and Chevron emissions".toList) 5).answer
      = none ∧
    (answerQuestion true none emptyQuery ("Compare Shell and Chevron emissions".toList) 5).answers
      = none ∧
    (answerQuestion true none emptyQuery ("Compare Shell and Chevron emissions".toList) 5).error
      = none := by
  decide

/-- C4 amended: every record returned by answer_question carries an
answer, an answers, an error, or a comparison_results field; the
successful comparison path is the one path that carries neither of the
first three. -/
theorem C4_amended_record_fields (vs : Bool) (qaP : Option QAPipe)
    (query : QueryFn) (q : Str) (k : Nat) :
    (answerQuestion vs qaP query q k).answer.isSome = true ∨
    (answerQuestion vs qaP query q k).answers.isSome = true ∨
    (answerQuestion vs qaP query q k).error.isSome = true ∨
    (answerQuestion vs qaP query q k).comparison_results.isSome = true := by
  unfold answerQuestion handleComparisonQuestion handleStandardQuestion
  split_ifs <;> simp <;> split_ifs <;> simp

/- C5: the insufficient-entities guard counts raw extracted lists, with
duplicates retained, not distinct entities. -/

/-- C5 counterexample: a comparison-classified question whose entities
hold one distinct organization and one distinct year (the year written
twice) is not answered with the insufficient-entities error; the handler
proceeds and builds a two-point year comparison. -/
theorem C5_counterexample :
    isComparisonQuestion ("Shell emissions in 2020 versus 2020".toList) = true ∧
    (extractEntities ("Shell emissions in 2020 versus 2020".toList)).companies.dedup.length = 1 ∧
    (extractEntities ("Shell emissions in 2020 versus 2020".toList)).years.dedup.length = 1 ∧
    (handleComparisonQuestion oneHitQuery ("Shell emissions in 2020 versus 2020".toList)).error
      = none ∧
    ((handleComparisonQuestion oneHitQuery ("Shell emissions in 2020 versus 2020".toList)).comparison_results.getD []).length
      = 2 := by
  decide

/-- C5 amended: the comparison handler returns the insufficient-entities
error exactly when the raw companies list and the raw years list (with
duplicates retained) both have fewer than two elements. -/
theorem C5_amended_insufficient_iff (query : QueryFn) (q : Str) :
    (handleComparisonQuestion query q).error
        = some ("Comparison requires at least 2 companies or 2 years".toList) ↔
      ((extractEntities q).companies.length < 2 ∧ (extractEntities q).years.length < 2) := by
  simp only [handleComparisonQuestion]
  split_ifs with h
  · simpa using h
  · simpa using h

/- C6: the division guard in the comparison metrics. -/

/-- C6: every unit comparison emitted by _calculate_comparison_metrics has
percentage_difference equal to (highest minus lowest) over lowest times
100 when its lowest value is positive, and exactly 0 when its lowest
value is at most 0, so the division by the lowest value is guarded. -/
theorem C6_percentage_difference (rs : List CompPoint) (c : UnitComparison)
    (hc : c ∈ (calcComparisonMetrics rs).numerical_comparisons) :
    (0 < c.lowest.value →
      c.percentage_difference
        = (c.highest.value - c.lowest.value) / c.lowest.value * 100) ∧
    (c.lowest.value ≤ 0 → c.percentage_difference = 0) := by
  simp only [calcComparisonMetrics] at hc
  split_ifs at hc
  · simp at hc
  · simp only [List.mem_filterMap] at hc
    obtain ⟨g, hg, hsome⟩ := hc
    split_ifs at hsome
    obtain rfl : mkUnitComparison g.1 g.2 = c := Option.some.inj hsome
    simp only [mkUnitComparison]
    constructor
    · intro h
      rw [if_pos h]
    · intro h
      rw [if_neg (not_lt.mpr h)]

/-- Witness for C6 on the two-point fixture whose tCO2 group has values
12 and 8, giving percentage difference 50. -/
theorem C6_witness :
    (0 < demoCmp.lowest.value →
      demoCmp.percentage_difference
        = (demoCmp.highest.value - demoCmp.lowest.value) / demoCmp.lowest.value * 100) ∧
    (demoCmp.lowest.value ≤ 0 → demoCmp.percentage_difference = 0) :=
  C6_percentage_difference demoPoints demoCmp (by
    have : (calcComparisonMetrics demoPoints).numerical_comparisons = [demoCmp] := by
      norm_num [calcComparisonMetrics, demoPoints, demoPoint, unitGroups, insertVal,
        sortDesc, insertDesc, mkUnitComparison, demoCmp, lowerStr, List.filterMap]
      decide
    rw [this]
    exact List.mem_singleton.mpr rfl)

/- Structural lemmas about the pattern scanner, used for the ordering
claim: every match is nonempty, so the scan position strictly increases
from one match to the next. -/

theorem matchNumSci_ne_nil {s n r : Str} (h : matchNumSci s = some (n, r)) :
    n ≠ [] := by
  simp only [matchNumSci] at h
  split_ifs at h with hds
  simp only [Option.some.injEq, Prod.mk.injEq] at h
  obtain ⟨rfl, -⟩ := h
  intro hnil
  rw [List.append_eq_nil, List.append_eq_nil] at hnil
  exact hds (by rw [hnil.1.1]; rfl)

theorem matchNumComma_ne_nil {s n r : Str} (h : matchNumComma s = some (n, r)) :
    n ≠ [] := by
  simp only [matchNumComma] at h
  split_ifs at h with hds
  simp only [Option.some.injEq, Prod.mk.injEq] at h
  obtain ⟨rfl, -⟩ := h
  intro hnil
  rw [List.append_eq_nil, List.append_eq_nil, List.take_eq_nil_iff] at hnil
  rcases hnil.1.1 with h3 | hempty
  · exact absurd h3 (by decide)
  · exact hds (by rw [hempty]; rfl)

theorem tryMatchAt_g0_ne_nil {p : NumPattern} {s : Str} {r : MRes}
    (h : tryMatchAt p s = some r) : r.g0 ≠ [] := by
  simp only [tryMatchAt] at h
  cases hnum : (match p.kind with
                | .sci => matchNumSci s
                | .comma => matchNumComma s) with
  | none => simp [hnum] at h
  | some nr =>
    obtain ⟨n1, n2⟩ := nr
    simp only [hnum] at h
    cases hu : matchUnits p.units (takeWs n2).2 with
    | none => simp [hu] at h
    | some u =>
      simp only [hu] at h
      obtain rfl := Option.some.inj h
      have hnr : n1 ≠ [] := by
        cases hk : p.kind with
        | sci =>
          simp only [hk] at hnum
          exact matchNumSci_ne_nil hnum
        | comma =>
          simp only [hk] at hnum
          exact matchNumComma_ne_nil hnum
      simp only [ne_eq, List.append_eq_nil]
      intro hcon
      exact hnr hcon.1.1

theorem scanAux_le_start (p : NumPattern) :
    ∀ (fuel : Nat) (s : Str) (pos : Nat) (m : RMatch),
      m ∈ scanAux p fuel s pos → pos ≤ m.start := by
  intro fuel
  induction fuel with
  | zero => intro s pos m hm; simp [scanAux] at hm
  | succ f ih =>
    intro s pos m hm
    cases s with
    | nil => simp [scanAux] at hm
    | cons c t =>
      rw [scanAux] at hm
      cases htry : tryMatchAt p (c :: t) with
      | some r =>
        rw [htry] at hm
        rcases List.mem_cons.mp hm with rfl | hm2
        · exact le_refl _
        · exact le_trans (Nat.le_add_right _ _) (ih _ _ _ hm2)
      | none =>
        rw [htry] at hm
        have := ih _ _ _ hm
        omega

theorem scanAux_pairwise (p : NumPattern) :
    ∀ (fuel : Nat) (s : Str) (pos : Nat),
      List.Pairwise (fun a b => a.start < b.start) (scanAux p fuel s pos) := by
  intro fuel
  induction fuel with
  | zero => intro s pos; simp [scanAux]
  | succ f ih =>
    intro s pos
    cases s with
    | nil => simp [scanAux]
    | cons c t =>
      rw [scanAux]
      cases htry : tryMatchAt p (c :: t) with
      | some r =>
        refine List.Pairwise.cons ?_ (ih _ _)
        intro b hb
        have h1 := scanAux_le_start p f r.rest (pos + r.g0.length) b hb
        have h2 : 1 ≤ r.g0.length :=
          List.length_pos.mpr (tryMatchAt_g0_ne_nil htry)
        show pos < b.start
        omega
      | none => exact ih _ _

/-- Matches of one pattern are reported in strictly increasing text
positions. -/
theorem finditer_pairwise (p : NumPattern) (text : Str) :
    List.Pairwise (fun a b => a.start < b.start) (finditer p text) := by
  unfold finditer
  exact scanAux_pairwise p (text.length + 1) text 0

/-- The extraction loop is the concatenation of the per-pattern fact
lists, in the fixed source order of the patterns. -/
theorem extract_eq_four (text : Str) :
    extractNumericalValues text
      = (finditer massPattern text).filterMap (mkFact text)
        ++ ((finditer energyPattern text).filterMap (mkFact text)
        ++ ((finditer percentPattern text).filterMap (mkFact text)
        ++ (finditer commaMassPattern text).filterMap (mkFact text))) := by
  simp [extractNumericalValues, numericPatterns]

/- C7: output order of the numeric fact extractor. -/

/-- C7 counterexample: in the text 5 GWh and 3 tonnes the energy fact
occurs first in the text (position 0) but the extractor emits the mass
fact first, because the loop walks the patterns family by family; the
match positions come out as 10, 0, 10, which is not ordered by position
of occurrence. -/
theorem C7_counterexample :
    (allPatternMatches ("5 GWh and 3 tonnes".toList)).map (fun m => m.start)
      = [10, 0, 10] ∧
    ¬ List.Pairwise (fun a b => a ≤ b)
        ((allPatternMatches ("5 GWh and 3 tonnes".toList)).map (fun m => m.start)) ∧
    extractNumericalValues ("5 GWh and 3 tonnes".toList)
      = (allPatternMatches ("5 GWh and 3 tonnes".toList)).filterMap
          (mkFact ("5 GWh and 3 tonnes".toList)) ∧
    (extractNumericalValues ("5 GWh and 3 tonnes".toList)).map (fun f => f.raw)
      = ["3 tonnes".toList, "5 GWh".toList, "3 tonnes".toList] := by
  decide

/-- C7 amended: the extractor emits facts grouped by pattern family in
the fixed source order (mass, energy, percentage, comma-mass), and only
within one family do the matches follow the position of occurrence in the
text, in strictly increasing order. -/
theorem C7_amended_order (text : Str) :
    extractNumericalValues text
      = (finditer massPattern text).filterMap (mkFact text)
        ++ ((finditer energyPattern text).filterMap (mkFact text)
        ++ ((finditer percentPattern text).filterMap (mkFact text)
        ++ (finditer commaMassPattern text).filterMap (mkFact text))) ∧
    List.Pairwise (fun a b => a.start < b.start) (finditer massPattern text) ∧
    List.Pairwise (fun a b => a.start < b.start) (finditer energyPattern text) ∧
    List.Pairwise (fun a b => a.start < b.start) (finditer percentPattern text) ∧
    List.Pairwise (fun a b => a.start < b.start) (finditer commaMassPattern text) :=
  ⟨extract_eq_four text, finditer_pairwise _ text, finditer_pairwise _ text,
   finditer_pairwise _ text, finditer_pairwise _ text⟩

/- Well-formedness of the number groups produced by the comma pattern:
stripping the commas always leaves a string the float model accepts, so a
pattern-4 match can never be skipped by the ValueError handler. -/

theorem takeDigits_digits (s : Str) : ∀ c ∈ (takeDigits s).1, c.isDigit = true := by
  induction s with
  | nil => simp [takeDigits]
  | cons a t ih =>
    by_cases ha : a.isDigit = true
    · intro c hc
      simp only [takeDigits, ha, if_true, List.mem_cons] at hc
      rcases hc with rfl | hc
      · exact ha
      · exact ih c hc
    · intro c hc
      simp only [takeDigits, Bool.not_eq_true] at hc
      rw [Bool.not_eq_true] at ha
      simp [ha] at hc

theorem takeDigits_append {D F : Str} (hD : ∀ c ∈ D, c.isDigit = true)
    (hF : F = [] ∨ ∃ c t, F = c :: t ∧ c.isDigit = false) :
    takeDigits (D ++ F) = (D, F) := by
  induction D with
  | nil =>
    rcases hF with rfl | ⟨c, t, rfl, hc⟩
    · rfl
    · simp [takeDigits, hc]
  | cons d D ih =>
    have hd : d.isDigit = true := hD d (by simp)
    have hrec : takeDigits (D ++ F) = (D, F) := ih (fun c hc => hD c (by simp [hc]))
    simp [takeDigits, hd, hrec]

theorem takeDigits_all {l : Str} (h : ∀ c ∈ l, c.isDigit = true) :
    takeDigits l = (l, []) := by
  have := takeDigits_append h (Or.inl rfl)
  simpa using this

theorem commaGroups_filter_digits (s : Str) :
    ∀ x ∈ ((commaGroups s).1.filter (fun c => c != ',')), x.isDigit = true := by
  induction s using commaGroups.induct with
  | case1 a b c t hd ih =>
    intro x hx
    obtain ⟨ha, hb, hc⟩ : a.isDigit = true ∧ b.isDigit = true ∧ c.isDigit = true := by
      simpa [Bool.and_eq_true, and_assoc] using hd
    rw [List.mem_filter] at hx
    obtain ⟨hmem, hne⟩ := hx
    simp only [commaGroups, hd, if_true, List.mem_cons] at hmem
    rcases hmem with rfl | rfl | rfl | rfl | hmem
    · exact absurd hne (by decide)
    · exact ha
    · exact hb
    · exact hc
    · exact ih x (List.mem_filter.mpr ⟨hmem, hne⟩)
  | case2 a b c t hd =>
    intro x hx
    simp [commaGroups, hd] at hx
  | case3 s hs =>
    intro x hx
    rcases s with _ | ⟨c, t⟩
    · simp [commaGroups] at hx
    · rw [commaGroups] at hx
      · simp at hx
      · exact hs

theorem optFrac_shape (s : Str) :
    (optFrac s).1 = [] ∨
      ∃ fs, (optFrac s).1 = '.' :: fs ∧ fs ≠ [] ∧ ∀ c ∈ fs, c.isDigit = true := by
  cases s with
  | nil => exact Or.inl rfl
  | cons c t =>
    by_cases hc : c = '.'
    · subst hc
      by_cases hd : (takeDigits t).1.isEmpty
      · left
        simp [optFrac, hd]
      · right
        refine ⟨(takeDigits t).1, ?_, ?_, takeDigits_digits t⟩
        · simp [optFrac, hd]
        · intro hnil
          rw [hnil] at hd
          simp at hd
    · left
      simp [optFrac, hc]

theorem digit_ne_comma {c : Char} (h : c.isDigit = true) : (c != ',') = true := by
  by_cases hc : c = ','
  · subst hc; exact absurd h (by decide)
  · simp [bne, hc]

theorem filter_comma_of_digits {l : Str} (h : ∀ c ∈ l, c.isDigit = true) :
    l.filter (fun c => c != ',') = l :=
  List.filter_eq_self.mpr (fun c hc => digit_ne_comma (h c hc))

theorem parseFloat_digits_frac {D F : Str} (hD : ∀ c ∈ D, c.isDigit = true)
    (hne : D ≠ [])
    (hF : F = [] ∨ ∃ fs, F = '.' :: fs ∧ fs ≠ [] ∧ ∀ c ∈ fs, c.isDigit = true) :
    ∃ q, parseFloat (D ++ F) = some q := by
  obtain ⟨d0, D1, rfl⟩ := List.exists_cons_of_ne_nil hne
  have hTD : takeDigits ((d0 :: D1) ++ F) = (d0 :: D1, F) := by
    apply takeDigits_append hD
    rcases hF with rfl | ⟨fs, rfl, -, -⟩
    · exact Or.inl rfl
    · exact Or.inr ⟨'.', fs, rfl, by decide⟩
  rcases hF with rfl | ⟨fs, rfl, hfsne, hfs⟩
  · refine ⟨((natOfDigits (d0 :: D1) : ℚ)), ?_⟩
    simp only [parseFloat, hTD]
  · have hTF : takeDigits fs = (fs, []) := takeDigits_all hfs
    exact ⟨mantissaQ (d0 :: D1) fs, by simp only [parseFloat, hTD, hTF]⟩

theorem matchNumComma_parse {s n rest : Str} (h : matchNumComma s = some (n, rest)) :
    ∃ q, parseFloat (n.filter (fun c => c != ',')) = some q := by
  simp only [matchNumComma] at h
  split_ifs at h with hds
  simp only [Option.some.injEq, Prod.mk.injEq] at h
  obtain ⟨rfl, -⟩ := h
  have hD3d : ∀ c ∈ (takeDigits s).1.take 3, c.isDigit = true := fun c hc =>
    takeDigits_digits s c (List.take_subset _ _ hc)
  have hD3ne : (takeDigits s).1.take 3 ≠ [] := by
    rw [Ne, List.take_eq_nil_iff]
    push_neg
    refine ⟨by omega, ?_⟩
    intro hnil
    exact hds (by rw [hnil]; rfl)
  have hGd := commaGroups_filter_digits ((takeDigits s).1.drop 3 ++ (takeDigits s).2)
  rcases optFrac_shape (commaGroups ((takeDigits s).1.drop 3 ++ (takeDigits s).2)).2 with
    hF0 | ⟨fs, hFeq, hfsne, hfs⟩
  · rw [hF0, List.append_nil, List.filter_append, filter_comma_of_digits hD3d]
    have hall : ∀ c ∈ (takeDigits s).1.take 3 ++
        List.filter (fun c => c != ',')
          (commaGroups ((takeDigits s).1.drop 3 ++ (takeDigits s).2)).1,
        c.isDigit = true := by
      intro c hc
      rcases List.mem_append.mp hc with hc1 | hc2
      · exact hD3d c hc1
      · exact hGd c hc2
    have hne2 : (takeDigits s).1.take 3 ++
        List.filter (fun c => c != ',')
          (commaGroups ((takeDigits s).1.drop 3 ++ (takeDigits s).2)).1 ≠ [] :=
      fun hnil => hD3ne (List.append_eq_nil.mp hnil).1
    have h := parseFloat_digits_frac hall hne2 (Or.inl rfl)
    simpa using h
  · rw [hFeq, List.filter_append, List.filter_append, filter_comma_of_digits hD3d]
    have hFfilter : ('.' :: fs).filter (fun c => c != ',') = '.' :: fs := by
      refine List.filter_eq_self.mpr ?_
      intro c hc
      rcases List.mem_cons.mp hc with rfl | hc2
      · decide
      · exact digit_ne_comma (hfs c hc2)
    rw [hFfilter]
    refine parseFloat_digits_frac ?_ ?_ (Or.inr ⟨fs, rfl, hfsne, hfs⟩)
    · intro c hc
      rcases List.mem_append.mp hc with hc1 | hc2
      · exact hD3d c hc1
      · exact hGd c hc2
    · exact fun hnil => hD3ne (List.append_eq_nil.mp hnil).1

/-- Every reported match carries the groups of a successful anchored
pattern match on some suffix of the text. -/
theorem scanAux_src (p : NumPattern) :
    ∀ (fuel : Nat) (s : Str) (pos : Nat) (m : RMatch), m ∈ scanAux p fuel s pos →
      ∃ s0 r, tryMatchAt p s0 = some r ∧ m.matched = r.g0 ∧ m.g1 = r.g1 ∧ m.g2 = r.g2 := by
  intro fuel
  induction fuel with
  | zero => intro s pos m hm; simp [scanAux] at hm
  | succ f ih =>
    intro s pos m hm
    cases s with
    | nil => simp [scanAux] at hm
    | cons c t =>
      rw [scanAux] at hm
      cases htry : tryMatchAt p (c :: t) with
      | some r =>
        rw [htry] at hm
        rcases List.mem_cons.mp hm with rfl | hm2
        · exact ⟨c :: t, r, htry, rfl, rfl, rfl⟩
        · exact ih _ _ _ hm2
      | none =>
        rw [htry] at hm
        exact ih _ _ _ hm

/-- A pattern-4 match stores the output of the comma number matcher as
its first group. -/
theorem tryMatchAt_comma_g1 {s : Str} {r : MRes}
    (h : tryMatchAt commaMassPattern s = some r) :
    ∃ rest, matchNumComma s = some (r.g1, rest) := by
  have hk : commaMassPattern.kind = NumKind.comma := rfl
  simp only [tryMatchAt, hk] at h
  cases hnum : matchNumComma s with
  | none => simp [hnum] at h
  | some nr =>
    obtain ⟨n1, n2⟩ := nr
    simp only [hnum] at h
    cases hu : matchUnits commaMassPattern.units (takeWs n2).2 with
    | none => simp [hu] at h
    | some u =>
      simp only [hu] at h
      obtain rfl := Option.some.inj h
      exact ⟨n2, rfl⟩

/- C8: how comma thousands separators are parsed. -/

/-- C8 counterexample: for the text 1,234 GWh the extractor emits exactly
one fact, with value 234 (the digits after the comma), not 1234: the
comma-aware pattern covers only the mass units, so for an energy unit the
separator splits the number. -/
theorem C8_counterexample :
    (extractNumericalValues ("1,234 GWh".toList)).map (fun f => f.value)
      = [(234 : ℚ)] ∧
    (extractNumericalValues ("1,234 GWh".toList)).map (fun f => f.unit)
      = ["GWh".toList] ∧
    (extractNumericalValues ("1,234 GWh".toList)).map (fun f => f.raw)
      = ["234 GWh".toList] := by
  decide

/-- C8 amended: whenever the comma-aware fourth pattern matches (its unit
alternation holds the mass units tCO2, tonne, ton, Mt, Gt, with optional
plural s), the extractor emits a fact whose value is the float of the
matched number with the commas stripped; for the energy and percentage
patterns no comma-aware matching exists. -/
theorem C8_amended_comma_mass (text : Str) (m : RMatch)
    (hm : m ∈ finditer commaMassPattern text) :
    ∃ f ∈ extractNumericalValues text,
      f.raw = m.matched ∧ f.unit = m.g2 ∧
        parseFloat (m.g1.filter (fun c => c != ',')) = some f.value := by
  rw [finditer] at hm
  obtain ⟨s0, r, htry, hmat, hg1, hg2⟩ :=
    scanAux_src commaMassPattern _ _ _ m hm
  obtain ⟨rest, hnum⟩ := tryMatchAt_comma_g1 htry
  obtain ⟨q, hq⟩ := matchNumComma_parse hnum
  have hq2 : parseFloat (m.g1.filter (fun c => c != ',')) = some q := by
    rw [hg1]; exact hq
  have hmk : mkFact text m = some
      { value := q, unit := m.g2, raw := m.matched
      , context := (text.drop (m.start - 50)).take ((m.stop + 50) - (m.start - 50)) } := by
    simp only [mkFact, hq2]
  refine ⟨{ value := q, unit := m.g2, raw := m.matched
          , context := (text.drop (m.start - 50)).take ((m.stop + 50) - (m.start - 50)) },
      ?_, rfl, rfl, ?_⟩
  · rw [extract_eq_four]
    refine List.mem_append.mpr (Or.inr (List.mem_append.mpr (Or.inr
      (List.mem_append.mpr (Or.inr ?_)))))
    exact List.mem_filterMap.mpr ⟨m, by rw [finditer]; exact hm, hmk⟩
  · exact hq2

/-- Witness for C8 at the text 1,234 tonnes, whose pattern-4 match has
number group 1,234 and unit group tonnes. -/
theorem C8_witness :
    ∃ f ∈ extractNumericalValues ("1,234 tonnes".toList),
      f.raw = demoCommaMatch.matched ∧ f.unit = demoCommaMatch.g2 ∧
        parseFloat (demoCommaMatch.g1.filter (fun c => c != ',')) = some f.value :=
  C8_amended_comma_mass ("1,234 tonnes".toList) demoCommaMatch (by decide)

/- C9: overlapping patterns may emit the same fact twice. -/

/-- C9: on the text 500 tonnes, the mass pattern and the comma-aware mass
pattern both match the same span, and the extractor emits the identical
fact twice; no deduplication is performed. -/
theorem C9_duplicate_facts :
    extractNumericalValues ("500 tonnes".toList) = [demoTonnesFact, demoTonnesFact] ∧
    demoTonnesFact.value = 500 ∧
    demoTonnesFact.unit = "tonnes".toList ∧
    demoTonnesFact.raw = "500 tonnes".toList := by
  decide

/-- Witness for C10 at a concrete question naming only Saudi Aramco. -/
theorem C10_witness :
    containsSub (lowerStr ("Saudi Aramco".toList))
        (lowerStr ("Tell me about Saudi Aramco".toList)) = true ∧
    (("Saudi Aramco".toList) ∈ (extractEntities ("Tell me about Saudi Aramco".toList)).companies ∧
     ("Aramco".toList) ∈ (extractEntities ("Tell me about Saudi Aramco".toList)).companies ∧
     2 ≤ (extractEntities ("Tell me about Saudi Aramco".toList)).companies.length ∧
     isComparisonQuestion ("Tell me about Saudi Aramco".toList) = true ∧
     (∀ kv ∈ buildMetadataFilters (extractEntities ("Tell me about Saudi Aramco".toList)),
        kv.1 ≠ "company_name")) :=
  ⟨by decide, C10_saudi_aramco ("Tell me about Saudi Aramco".toList) (by decide)⟩
